import Mathlib

/-!
Shallow embedding of the QB_Connector chart-of-accounts synchroniser
(src/models.py, src/compare.py, src/excel_reader.py, src/qb_gateway.py,
src/runner.py, src/cli.py), together with theorems about the embedded code.
Machine strings stay strings; Python dicts are modelled as insertion-ordered
association lists; fallible Python code returns Except.
-/

set_option maxHeartbeats 1000000

namespace QBConnector

/-- models.py Account dataclass.  The dataclass annotates `number` as int,
but every producer in the repository (excel_reader, qb_gateway, the tests)
stores a string there and Python dataclasses do not enforce annotations, so
the embedding uses String.  `source` holds the SourceLiteral tag
("excel" or "quickbooks"). -/
structure Account where
  AccountType : String
  number : String
  name : String
  id : String
  source : String
deriving DecidableEq, Repr

/-- models.py Conflict dataclass; excel_name and qb_name are `str | None`. -/
structure Conflict where
  AccountType : String
  id : String
  excel_name : Option String
  qb_name : Option String
  reason : String
deriving DecidableEq, Repr

/-- models.py ComparisonReport dataclass. -/
structure ComparisonReport where
  excel_only : List Account
  qb_only : List Account
  conflicts : List Conflict
deriving DecidableEq, Repr

/-- CPython dict modelled as an insertion-ordered association list: writing
to an existing key updates the value in place (the key keeps its original
position), writing a fresh key appends it at the end.  This is the
observable behaviour of dict comprehensions in Python 3.7+. -/
def dictInsert {β : Type} (k : String) (v : β) : List (String × β) → List (String × β)
  | [] => [(k, v)]
  | p :: rest => if p.1 = k then (k, v) :: rest else p :: dictInsert k v rest

/-- Python `d[k]` / `d.get(k)`: first (and, for nodup keys, only) binding. -/
def dictGet? {β : Type} : List (String × β) → String → Option β
  | [], _ => Option.none
  | p :: rest, k => if p.1 = k then some p.2 else dictGet? rest k

/-- Python `d.keys()` in iteration order. -/
def dictKeys {β : Type} (d : List (String × β)) : List String := d.map Prod.fst

/-- Python `k in d` membership test. -/
def dictContains {β : Type} (d : List (String × β)) (k : String) : Bool :=
  (dictGet? d k).isSome

/-- compare.py lines 109-110: `excel_dict = {term.AccountType: term for term
in excel_terms}` (and the same for qb_terms) — the lookup tables are keyed
by the record's AccountType field, not by its id. -/
def buildDict (terms : List Account) : List (String × Account) :=
  terms.foldl (fun d term => dictInsert term.AccountType term d) []

/-- Iteration order of CPython's `set(excel_dict.keys()).intersection(
qb_dict.keys())` (compare.py line 116) is unspecified: string hashing is
salted per process, so the order can differ between runs.  The embedding
therefore takes the enumeration as a parameter; ValidInter states all that
CPython guarantees about it: it lists exactly the common keys, each once. -/
def ValidInter (inter : List String → List String → List String) : Prop :=
  ∀ a b : List String, (inter a b).Nodup ∧ ∀ x : String, x ∈ inter a b ↔ (x ∈ a ∧ x ∈ b)

/-- compare.py lines 117-128, the body of the `for atype in set(...)
.intersection(...)` loop: look the key up in both dicts and emit one
Conflict with reason "name_mismatch" when the two names differ, carrying
the two names and the Excel record's id; nothing is emitted when the names
agree.  The wildcard arm is unreachable when `atype` is a common key
(Python's `excel_dict[atype]` would raise KeyError there). -/
def conflictAt (excel_dict qb_dict : List (String × Account)) (atype : String) :
    Option Conflict :=
  match dictGet? excel_dict atype, dictGet? qb_dict atype with
  | some e, some q =>
    if e.name ≠ q.name then
      some { AccountType := atype, id := e.id, excel_name := some e.name,
             qb_name := some q.name, reason := "name_mismatch" }
    else Option.none
  | _, _ => Option.none

/-- compare.py compare_account_types (lines 109-134): builds the two
AccountType-keyed dicts, takes the records whose AccountType key is absent
from the other dict, and walks the set intersection of the key sets
applying conflictAt.  The `inter` parameter supplies the set-iteration
order (see ValidInter). -/
def compare_account_types (inter : List String → List String → List String)
    (excel_terms qb_terms : List Account) : ComparisonReport :=
  let excel_dict := buildDict excel_terms
  let qb_dict := buildDict qb_terms
  let excel_only := (excel_dict.filter (fun it => !(dictContains qb_dict it.1))).map Prod.snd
  let qb_only := (qb_dict.filter (fun it => !(dictContains excel_dict it.1))).map Prod.snd
  let conflicts := (inter (dictKeys excel_dict) (dictKeys qb_dict)).filterMap
    (conflictAt excel_dict qb_dict)
  { excel_only := excel_only, qb_only := qb_only, conflicts := conflicts }

/-- One realizable set-iteration order, used to instantiate witnesses:
the common keys in first-argument order. -/
def interFirst (a b : List String) : List String :=
  (a.filter (fun k => decide (k ∈ b))).dedup

/-- Another realizable set-iteration order: the same enumeration reversed. -/
def interRev (a b : List String) : List String := (interFirst a b).reverse

/-- Python `str.strip()` (no argument): remove leading and trailing
whitespace.  Implemented over the character list so that the kernel can
evaluate it; agrees with Python on ASCII whitespace. -/
def pyStrip (s : String) : String :=
  String.mk (((s.toList.dropWhile Char.isWhitespace).reverse.dropWhile Char.isWhitespace).reverse)

/-- Tail of a valid digit run for Python `int(str)`: digits, with single
underscores allowed strictly between digits. -/
def pyDigitsRest : List Char → Bool
  | [] => true
  | '_' :: [] => false
  | '_' :: d :: rest => d.isDigit && pyDigitsRest rest
  | c :: rest => c.isDigit && pyDigitsRest rest

/-- Nonempty digit run (first character must be a digit). -/
def pyDigitsOk : List Char → Bool
  | [] => false
  | c :: rest => c.isDigit && pyDigitsRest rest

/-- Decimal value of a digit run, skipping grouping underscores. -/
def digitsToNat (cs : List Char) : Nat :=
  cs.foldl (fun acc c => if c = '_' then acc else acc * 10 + (c.toNat - '0'.toNat)) 0

/-- Python `int(s)` for a str argument: surrounding whitespace is stripped,
an optional sign precedes a nonempty digit run (single underscores allowed
between digits); anything else raises ValueError, modelled as none.
`int("30.0")` raises; `int(" 42 ")` is 42; `int("007")` is 7. -/
def pyInt (s : String) : Option Int :=
  let cs := (pyStrip s).toList
  match cs with
  | '+' :: rest => if pyDigitsOk rest then some (Int.ofNat (digitsToNat rest)) else Option.none
  | '-' :: rest => if pyDigitsOk rest then some (-(Int.ofNat (digitsToNat rest))) else Option.none
  | _ => if pyDigitsOk cs then some (Int.ofNat (digitsToNat cs)) else Option.none

/-- qb_gateway.py identifier canonicalization applied when translating the
external system's Desc field: `id = str(int(id))` falling back to
`id.strip()` on ValueError (fetch_accounts lines 84-88 and the batch
response parser). -/
def pyCanonId (s : String) : String :=
  match pyInt s with
  | some n => toString n
  | Option.none => pyStrip s

/-- One parsed AccountRet element of a QuickBooks response; each field is
`findtext(...)`, None when the tag is absent. -/
structure AccountRet where
  desc : Option String
  name : Option String
  accountNumber : Option String
  accountType : Option String
deriving DecidableEq, Repr

/-- qb_gateway.py _escape_xml. -/
def escape_xml (value : String) : String :=
  ((((value.replace "&" "&amp;").replace "<" "&lt;").replace ">" "&gt;").replace "\"" "&quot;").replace "\x27" "&apos;"

/-- qb_gateway.py add_accounts_batch, request-building loop body: computes
`desc_value = int(term.id)` — raising ValueError for a non-numeric id
before anything is sent — and renders one AccountAddRq fragment. -/
def account_add_request (t : Account) : Except String String :=
  match pyInt t.id with
  | Option.none =>
    Except.error ("ValueError: id must be numeric for QuickBooks account terms: " ++ t.id)
  | some desc_value =>
    Except.ok ("    <AccountAddRq>\n      <AccountAdd>\n        <Name>" ++ escape_xml t.name
      ++ "</Name>\n        <AccountType>" ++ escape_xml t.AccountType
      ++ "</AccountType>\n        <AccountNumber>" ++ escape_xml t.number
      ++ "</AccountNumber>\n        <Desc>" ++ toString desc_value
      ++ "</Desc>\n      </AccountAdd>\n    </AccountAddRq>")

/-- qb_gateway.py add_accounts_batch, the `for term in terms` loop: the
first non-numeric id aborts the whole call with ValueError. -/
def build_requests : List Account → Except String (List String)
  | [] => Except.ok []
  | t :: ts =>
    match account_add_request t with
    | Except.error e => Except.error e
    | Except.ok r =>
      match build_requests ts with
      | Except.error e => Except.error e
      | Except.ok rs => Except.ok (r :: rs)

/-- qb_gateway.py add_accounts_batch: the assembled batch QBXML envelope
(continueOnError mode). -/
def batch_qbxml (requests : List String) : String :=
  "<?xml version=\"1.0\"?>\n<?qbxml version=\"13.0\"?>\n<QBXML>\n  <QBXMLMsgsRq onError=\"continueOnError\">\n"
    ++ String.intercalate "\n" requests
    ++ "\n  </QBXMLMsgsRq>\n</QBXML>"

/-- qb_gateway.py add_accounts_batch, response-parsing loop body (the HEAD
side of the merge conflict left in the source, the only side consistent
with the Account dataclass): skips an AccountRet without a truthy Desc,
canonicalizes the id with str(int(..)) / strip, strips name and type. -/
def parse_added_account (r : AccountRet) : Option Account :=
  match r.desc with
  | Option.none => Option.none
  | some id0 =>
    if id0 = "" then Option.none
    else
      some { id := pyCanonId id0, name := pyStrip (r.name.getD ""),
             number := r.accountNumber.getD "",
             AccountType := pyStrip (r.accountType.getD ""), source := "quickbooks" }

/-- qb_gateway.py add_accounts_batch (lines 109-167).  `send` models
_send_qbxml: an Except.error is a RuntimeError from the transport or a
non-0/1 QuickBooks status.  Empty input returns [] at once; a non-numeric
id raises ValueError while building the requests, before any send; a
batch-level RuntimeError from send is swallowed and the call returns [];
otherwise the AccountRet elements of the response are parsed. -/
def add_accounts_batch (send : String → Except String (List AccountRet))
    (terms : List Account) : Except String (List Account) :=
  if terms = [] then Except.ok []
  else
    match build_requests terms with
    | Except.error e => Except.error e
    | Except.ok requests =>
      match send (batch_qbxml requests) with
      | Except.error _ => Except.ok []
      | Except.ok rets => Except.ok (rets.filterMap parse_added_account)

/-- qb_gateway.py fetch_accounts: the AccountQueryRq envelope. -/
def account_query_qbxml : String :=
  "<?xml version=\"1.0\"?>\n<?qbxml version=\"16.0\"?>\n<QBXML>\n  <QBXMLMsgsRq onError=\"stopOnError\">\n    <AccountQueryRq/>\n  </QBXMLMsgsRq>\n</QBXML>"

/-- qb_gateway.py fetch_accounts, per-AccountRet body (lines 77-100):
`findtext(..) or ""` defaults, skip when the raw id is empty, canonicalize
with str(int(..)) / strip, then skip again when the result is empty. -/
def fetch_parse_ret (r : AccountRet) : Option Account :=
  let id0 := r.desc.getD ""
  let name := r.name.getD ""
  let acc_number := r.accountNumber.getD ""
  let acc_type := r.accountType.getD ""
  if id0 = "" then Option.none
  else
    let id := pyCanonId id0
    if id = "" then Option.none
    else some { id := id, name := name, number := acc_number,
                AccountType := acc_type, source := "quickbooks" }

/-- qb_gateway.py fetch_accounts (lines 63-103): send the query (errors
from _send_qbxml propagate) and parse every AccountRet. -/
def fetch_accounts (send : String → Except String (List AccountRet)) :
    Except String (List Account) :=
  match send account_query_qbxml with
  | Except.error e => Except.error e
  | Except.ok rets => Except.ok (rets.filterMap fetch_parse_ret)

/-- One spreadsheet cell as openpyxl hands it to excel_reader.py with
values_only=True: None, a string, or a number.  For a numeric cell the
embedding carries Python's str() rendering of the value (str(30.0) is
"30.0", str(100) is "100"), since the reader only ever applies str() to
it and compares it against None and "". -/
inductive Cell
  | none
  | str (s : String)
  | num (pyRepr : String)
deriving DecidableEq, Repr

/-- Python str() of a cell value. -/
def Cell.pyStr : Cell → String
  | Cell.none => "None"
  | Cell.str s => s
  | Cell.num r => r

/-- Python `cell in (None, "")` as used for the ID and Number columns. -/
def Cell.isNoneOrEmpty (c : Cell) : Bool :=
  c = Cell.none || c = Cell.str ""

/-- excel_reader.py header_index comprehension `{header: idx for idx,
header in enumerate(headers)}` (a later duplicate header keeps the later
index, per dict semantics). -/
def buildHeaderIndex (headers : List String) : List (String × Nat) :=
  headers.enum.foldl (fun d p => dictInsert p.2 p.1 d) []

/-- excel_reader.py _value(row, column_name): the cell at the header's
column index, or None when the header is unknown or the row is short. -/
def getCol (header_index : List (String × Nat)) (row : List Cell) (column_name : String) : Cell :=
  match dictGet? header_index column_name with
  | Option.none => Cell.none
  | some idx =>
    match row.get? idx with
    | Option.none => Cell.none
    | some c => c

/-- excel_reader.py extract_account, one iteration of the row loop (lines
52-99): skip rows with missing/blank Name or Type, rows whose ID or Number
cell is None or "", and rows whose stripped id or number is empty; the id
is `str(raw_id).strip()` — plain stringification, no numeric
canonicalization (the try/except around str() is dead: str raises for
neither value).  Returns the Account tagged source="excel". -/
def extractRow (header_index : List (String × Nat)) (row : List Cell) : Option Account :=
  let raw_id := getCol header_index row "ID"
  let num := getCol header_index row "Number"
  let name := getCol header_index row "Name"
  if name = Cell.none then Option.none
  else
    let name_str := pyStrip name.pyStr
    if name_str = "" then Option.none
    else
      let type_cell := getCol header_index row "Type"
      if type_cell = Cell.none then Option.none
      else
        let type_str := pyStrip type_cell.pyStr
        if type_str = "" then Option.none
        else if raw_id.isNoneOrEmpty then Option.none
        else if num.isNoneOrEmpty then Option.none
        else
          let record_id := pyStrip raw_id.pyStr
          let number := pyStrip num.pyStr
          if record_id = "" then Option.none
          else if number = "" then Option.none
          else some { number := number, id := record_id, name := name_str,
                      AccountType := type_str, source := "excel" }

/-- excel_reader.py extract_account from the sheet rows onward (the
file-existence and worksheet checks that precede raise
FileNotFoundError/ValueError and are outside this model): first row is the
header row (an empty sheet yields []), headers are stringified and
stripped (None becomes ""), and every data row goes through extractRow. -/
def extract_account (sheetRows : List (List Cell)) : List Account :=
  match sheetRows with
  | [] => []
  | headers_row :: rows =>
    let headers := headers_row.map (fun h => if h = Cell.none then "" else pyStrip h.pyStr)
    let header_index := buildHeaderIndex headers
    rows.filterMap (extractRow header_index)

/-- runner.py _conflict_to_dict / _missing_in_excel_conflict output shape. -/
structure ConflictDict where
  record_id : String
  excel_name : Option String
  qb_name : Option String
  reason : String
deriving DecidableEq, Repr

/-- runner.py _account_to_dict output shape. -/
structure AccountDict where
  id : String
  name : String
  type : String
  number : String
  source : String
deriving DecidableEq, Repr

/-- runner.py report payload: `added_terms` is initialised to [] and never
reassigned; the success path stores the created records under the distinct
key `added_accounts`, modelled as an Option that is none when the key was
never added. -/
structure ReportPayload where
  status : String
  added_terms : List AccountDict
  added_accounts : Option (List AccountDict)
  conflicts : List ConflictDict
  error : Option String
deriving DecidableEq, Repr

/-- runner.py _account_to_dict reads `account.type`, an attribute the
Account dataclass (slots=True) does not define — its field is AccountType —
so the call raises AttributeError for every account. -/
def account_to_dict (_a : Account) : Except String AccountDict :=
  Except.error "AttributeError: Account object has no attribute type"

/-- runner.py list comprehension `[_account_to_dict(account) for account in
added_accounts]`: the first AttributeError aborts it. -/
def accounts_to_dicts : List Account → Except String (List AccountDict)
  | [] => Except.ok []
  | a :: rest =>
    match account_to_dict a with
    | Except.error e => Except.error e
    | Except.ok d =>
      match accounts_to_dicts rest with
      | Except.error e => Except.error e
      | Except.ok ds => Except.ok (d :: ds)

/-- runner.py _conflict_to_dict. -/
def conflict_to_dict (c : Conflict) : ConflictDict :=
  { record_id := c.id, excel_name := c.excel_name, qb_name := c.qb_name, reason := c.reason }

/-- runner.py _missing_in_excel_conflict. -/
def missing_in_excel_conflict (a : Account) : ConflictDict :=
  { record_id := a.id, excel_name := Option.none, qb_name := some a.name,
    reason := "missing_in_excel" }

/-- runner.py run_accounts (lines 36-96), with the four collaborator calls
(excel_reader.extract_accounts, qb_gateway.fetch_accounts,
compare.compare_payment_terms, qb_gateway.add_accounts_batch) passed as
parameters; an Except.error models the collaborator raising.  (In the
shipped wiring the compare step always raises: runner.py calls
compare.compare_payment_terms, an attribute the compare module does not
define.)  The whole try body is modelled step by step; any failure lands
in the except-Exception arm, which flips status to "error" and stores the
stringified exception, leaving conflicts as the initial [].  The payload
is produced — i.e. write_report is reached — on every path. -/
def run_accounts (extract : Except String (List Account))
    (fetch : Except String (List Account))
    (cmp : List Account → List Account → Except String ComparisonReport)
    (addBatch : List Account → Except String (List Account)) : ReportPayload :=
  let base : ReportPayload :=
    { status := "success", added_terms := [], added_accounts := Option.none,
      conflicts := [], error := Option.none }
  let tryBody : Except String (List AccountDict × List ConflictDict) :=
    match extract with
    | Except.error e => Except.error e
    | Except.ok excel_accounts =>
      match fetch with
      | Except.error e => Except.error e
      | Except.ok qb_accounts =>
        match cmp excel_accounts qb_accounts with
        | Except.error e => Except.error e
        | Except.ok comparison =>
          match addBatch comparison.excel_only with
          | Except.error e => Except.error e
          | Except.ok added_accounts =>
            let conflicts := comparison.conflicts.map conflict_to_dict
              ++ comparison.qb_only.map missing_in_excel_conflict
            match accounts_to_dicts added_accounts with
            | Except.error e => Except.error e
            | Except.ok added_dicts => Except.ok (added_dicts, conflicts)
  match tryBody with
  | Except.ok res =>
    { base with added_accounts := some res.1, conflicts := res.2 }
  | Except.error e =>
    { base with status := "error", error := some e }

/-- Names defined at module level by runner.py. -/
def runner_module_attrs : List String :=
  ["DEFAULT_REPORT_NAME", "_account_to_dict", "_conflict_to_dict",
   "_missing_in_excel_conflict", "run_accounts"]

/-- cli.py line 8, `from .runner import run_payment_terms`: the import
succeeds exactly when runner.py defines that name; otherwise the process
dies with ImportError before main is ever entered. -/
def cli_runner_import : Except String String :=
  if "run_payment_terms" ∈ runner_module_attrs then Except.ok "run_payment_terms"
  else Except.error "ImportError: cannot import name run_payment_terms from src.runner"

/-- Fixture: Excel record with AccountType "TA" and id "1". -/
def c1exA : Account :=
  { AccountType := "TA", number := "10", name := "n1", id := "1", source := "excel" }

/-- Fixture: QuickBooks record with AccountType "TB" and the same id "1". -/
def c1qbA : Account :=
  { AccountType := "TB", number := "10", name := "n2", id := "1", source := "quickbooks" }

/-- Fixture: Excel record with AccountType "TC". -/
def c1exC : Account :=
  { AccountType := "TC", number := "30", name := "cash", id := "7", source := "excel" }

/-- Fixture: QuickBooks record sharing AccountType "TC", different name. -/
def c1qbC : Account :=
  { AccountType := "TC", number := "30", name := "money", id := "8", source := "quickbooks" }

/-- Fixture: Excel record, AccountType "T", name "n", number "1". -/
def c2ex : Account :=
  { AccountType := "T", number := "1", name := "n", id := "1", source := "excel" }

/-- Fixture: QuickBooks record matched on AccountType "T", same name,
different number. -/
def c2qb : Account :=
  { AccountType := "T", number := "2", name := "n", id := "1", source := "quickbooks" }

/-- Fixture: Excel record, AccountType "TD", name "x". -/
def c2exD : Account :=
  { AccountType := "TD", number := "1", name := "x", id := "4", source := "excel" }

/-- Fixture: QuickBooks record matched on AccountType "TD", name "y". -/
def c2qbD : Account :=
  { AccountType := "TD", number := "1", name := "y", id := "5", source := "quickbooks" }

/-- Fixture: Excel record with AccountType "TM", for the matched-equal case. -/
def c3m1 : Account :=
  { AccountType := "TM", number := "9", name := "same", id := "2", source := "excel" }

/-- Fixture: QuickBooks record matched on AccountType "TM" with equal name. -/
def c3m2 : Account :=
  { AccountType := "TM", number := "9", name := "same", id := "2", source := "quickbooks" }

/-- Fixture: first Excel record with duplicate id "5" (AccountType "TA"). -/
def c4a : Account :=
  { AccountType := "TA", number := "1", name := "a", id := "5", source := "excel" }

/-- Fixture: second Excel record with the same id "5" (AccountType "TB"). -/
def c4b : Account :=
  { AccountType := "TB", number := "2", name := "b", id := "5", source := "excel" }

/-- Fixture: Excel records for the conflict-order scenario. -/
def c8e1 : Account :=
  { AccountType := "TA", number := "1", name := "a1", id := "1", source := "excel" }

/-- Fixture: second Excel record of the conflict-order scenario. -/
def c8e2 : Account :=
  { AccountType := "TB", number := "2", name := "b1", id := "2", source := "excel" }

/-- Fixture: QuickBooks record conflicting with c8e1 on name. -/
def c8q1 : Account :=
  { AccountType := "TA", number := "1", name := "a2", id := "1", source := "quickbooks" }

/-- Fixture: QuickBooks record conflicting with c8e2 on name. -/
def c8q2 : Account :=
  { AccountType := "TB", number := "2", name := "b2", id := "2", source := "quickbooks" }

/-- Fixture: account whose id "AB-1" is not parseable as an integer. -/
def c6bad : Account :=
  { AccountType := "ASSET", number := "100", name := "Cash", id := "AB-1", source := "excel" }

/-- Fixture: account whose id "30" is a valid integer string. -/
def c6good : Account :=
  { AccountType := "ASSET", number := "100", name := "Cash", id := "30", source := "excel" }

/-- Fixture: a transport that always reports a batch-level failure. -/
def c6sendFail : String → Except String (List AccountRet) :=
  fun _ => Except.error "QuickBooks error"

/-- Fixture: the conflict produced for the c1exC / c1qbC pair. -/
def c9c : Conflict :=
  { AccountType := "TC", id := "7", excel_name := some "cash",
    qb_name := some "money", reason := "name_mismatch" }

theorem validInter_interFirst : ValidInter interFirst := by
  intro a b
  refine ⟨(a.filter (fun k => decide (k ∈ b))).nodup_dedup, ?_⟩
  intro x
  simp [interFirst, List.mem_dedup, List.mem_filter]

theorem validInter_interRev : ValidInter interRev := by
  intro a b
  obtain ⟨hnd, hmem⟩ := validInter_interFirst a b
  refine ⟨by simpa [interRev] using hnd, ?_⟩
  intro x
  simpa [interRev, List.mem_reverse] using hmem x

theorem dictGet?_insert {β : Type} (k k' : String) (v : β) (d : List (String × β)) :
    dictGet? (dictInsert k v d) k' = if k' = k then some v else dictGet? d k' := by
  induction d with
  | nil =>
    by_cases h : k' = k
    · subst h; simp [dictInsert, dictGet?]
    · simp [dictInsert, dictGet?, h, show ¬ k = k' from fun hc => h hc.symm]
  | cons p rest ih =>
    by_cases hpk : p.1 = k
    · subst hpk
      by_cases h : k' = p.1
      · subst h; simp [dictInsert, dictGet?]
      · simp [dictInsert, dictGet?, h, show ¬ p.1 = k' from fun hc => h hc.symm]
    · simp only [dictInsert, hpk, if_false]
      by_cases hpk' : p.1 = k'
      · have h : ¬ k' = k := fun hc => hpk (hpk'.trans hc)
        simp [dictGet?, hpk', h]
      · simp [dictGet?, hpk', ih]

theorem mem_dictInsert {β : Type} {p : String × β} {k : String} {v : β}
    {d : List (String × β)} (h : p ∈ dictInsert k v d) : p = (k, v) ∨ p ∈ d := by
  induction d with
  | nil => simpa [dictInsert] using h
  | cons q rest ih =>
    by_cases hq : q.1 = k
    · simp only [dictInsert, hq, if_true, List.mem_cons] at h
      rcases h with h | h
      · exact Or.inl h
      · exact Or.inr (List.mem_cons_of_mem q h)
    · simp only [dictInsert, hq, if_false, List.mem_cons] at h
      rcases h with h | h
      · exact Or.inr (by simp [h])
      · rcases ih h with h' | h'
        · exact Or.inl h'
        · exact Or.inr (List.mem_cons_of_mem q h')

theorem mem_dictKeys_iff {β : Type} (d : List (String × β)) (k : String) :
    k ∈ dictKeys d ↔ (dictGet? d k).isSome := by
  induction d with
  | nil => simp [dictKeys, dictGet?]
  | cons p rest ih =>
    by_cases hp : p.1 = k
    · simp [dictKeys, dictGet?, hp]
    · simp only [dictKeys, List.map_cons, List.mem_cons, dictGet?, hp, if_false]
      constructor
      · intro h
        rcases h with h | h
        · exact absurd h.symm hp
        · exact ih.mp h
      · intro h
        exact Or.inr (ih.mpr h)

theorem dictKeys_insert {β : Type} (k : String) (v : β) (d : List (String × β)) :
    dictKeys (dictInsert k v d) =
      if k ∈ dictKeys d then dictKeys d else dictKeys d ++ [k] := by
  induction d with
  | nil => simp [dictInsert, dictKeys]
  | cons p rest ih =>
    by_cases hp : p.1 = k
    · have hc : k ∈ dictKeys (p :: rest) := by
        simp only [dictKeys, List.map_cons, List.mem_cons]
        exact Or.inl hp.symm
      rw [if_pos hc]
      simp [dictInsert, dictKeys, hp]
    · have hk1 : dictInsert k v (p :: rest) = p :: dictInsert k v rest := by
        simp [dictInsert, hp]
      by_cases hk : k ∈ dictKeys rest
      · have hc : k ∈ dictKeys (p :: rest) := by
          simp only [dictKeys, List.map_cons, List.mem_cons]
          exact Or.inr hk
        rw [if_pos hc, hk1]
        simp only [dictKeys, List.map_cons]
        rw [show List.map Prod.fst (dictInsert k v rest) = dictKeys (dictInsert k v rest) from rfl,
          ih, if_pos hk]
        rfl
      · have hc : ¬ k ∈ dictKeys (p :: rest) := by
          simp only [dictKeys, List.map_cons, List.mem_cons]
          push_neg
          exact ⟨fun hcc => hp hcc.symm, hk⟩
        rw [if_neg hc, hk1]
        simp only [dictKeys, List.map_cons]
        rw [show List.map Prod.fst (dictInsert k v rest) = dictKeys (dictInsert k v rest) from rfl,
          ih, if_neg hk]
        rfl

theorem nodup_dictKeys_insert {β : Type} {k : String} {v : β} {d : List (String × β)}
    (h : (dictKeys d).Nodup) : (dictKeys (dictInsert k v d)).Nodup := by
  rw [dictKeys_insert]
  by_cases hk : k ∈ dictKeys d
  · simpa [hk] using h
  · simp only [hk, if_false]
    exact List.Nodup.append h (List.nodup_singleton k) (by simpa using hk)

theorem nodup_dictKeys_buildDict (ts : List Account) : (dictKeys (buildDict ts)).Nodup := by
  suffices h : ∀ (l : List Account) (d : List (String × Account)), (dictKeys d).Nodup →
      (dictKeys (l.foldl (fun d term => dictInsert term.AccountType term d) d)).Nodup by
    exact h ts [] (by simp [dictKeys])
  intro l
  induction l with
  | nil => intro d hd; simpa using hd
  | cons t rest ih => intro d hd; exact ih _ (nodup_dictKeys_insert hd)

theorem mem_buildDict {p : String × Account} {ts : List Account}
    (h : p ∈ buildDict ts) : p.1 = p.2.AccountType ∧ p.2 ∈ ts := by
  suffices hgen : ∀ (l : List Account) (d : List (String × Account)),
      p ∈ l.foldl (fun d term => dictInsert term.AccountType term d) d →
      p ∈ d ∨ (p.1 = p.2.AccountType ∧ p.2 ∈ l) by
    rcases hgen ts [] h with h' | h'
    · simp at h'
    · exact h'
  intro l
  induction l with
  | nil => intro d hd; exact Or.inl (by simpa using hd)
  | cons t rest ih =>
    intro d hd
    rcases ih _ hd with h' | h'
    · rcases mem_dictInsert h' with h'' | h''
      · right
        refine ⟨by simp [h''], by simp [h'']⟩
      · exact Or.inl h''
    · exact Or.inr ⟨h'.1, List.mem_cons_of_mem t h'.2⟩

theorem dictGet?_eq_some_of_mem {β : Type} {d : List (String × β)}
    (hnd : (dictKeys d).Nodup) {k : String} {v : β} (hm : (k, v) ∈ d) :
    dictGet? d k = some v := by
  induction d with
  | nil => simp at hm
  | cons p rest ih =>
    have hnd' : p.1 ∉ List.map Prod.fst rest ∧ (List.map Prod.fst rest).Nodup := by
      have h0 := hnd
      simp only [dictKeys, List.map_cons] at h0
      exact List.nodup_cons.mp h0
    rcases List.mem_cons.mp hm with h | h
    · rw [← h]
      simp [dictGet?]
    · have hk : k ∈ List.map Prod.fst rest := List.mem_map.mpr ⟨(k, v), h, rfl⟩
      have hp : ¬ p.1 = k := fun hc => hnd'.1 (hc ▸ hk)
      simp only [dictGet?, hp, if_false]
      exact ih hnd'.2 h

theorem mem_of_dictGet?_eq_some {β : Type} {d : List (String × β)} {k : String} {v : β}
    (h : dictGet? d k = some v) : (k, v) ∈ d := by
  induction d with
  | nil => simp [dictGet?] at h
  | cons p rest ih =>
    by_cases hp : p.1 = k
    · simp only [dictGet?, hp, if_true, Option.some.injEq] at h
      exact List.mem_cons.mpr (Or.inl (by cases p; simp_all))
    · simp only [dictGet?, hp, if_false] at h
      exact List.mem_cons_of_mem p (ih h)

theorem list_find?_append {α : Type} (p : α → Bool) (l₁ l₂ : List α) :
    (l₁ ++ l₂).find? p = match l₁.find? p with
      | some a => some a
      | Option.none => l₂.find? p := by
  induction l₁ with
  | nil => simp
  | cons a rest ih =>
    by_cases hp : p a
    · simp [List.find?, hp]
    · simp only [List.cons_append, List.find?, hp]
      simpa using ih

theorem dictGet?_buildDict (ts : List Account) (k : String) :
    dictGet? (buildDict ts) k =
      ts.reverse.find? (fun t => t.AccountType == k) := by
  suffices hgen : ∀ (l : List Account) (d : List (String × Account)),
      dictGet? (l.foldl (fun d term => dictInsert term.AccountType term d) d) k =
        match l.reverse.find? (fun t => t.AccountType == k) with
        | some t => some t
        | Option.none => dictGet? d k by
    rw [buildDict, hgen ts []]
    cases ts.reverse.find? (fun t => t.AccountType == k) <;> simp [dictGet?]
  intro l
  induction l with
  | nil => intro d; simp
  | cons t rest ih =>
    intro d
    simp only [List.foldl_cons, List.reverse_cons]
    rw [ih, list_find?_append]
    cases hf : rest.reverse.find? (fun t => t.AccountType == k) with
    | some u => simp
    | none =>
      by_cases ht : t.AccountType = k
      · have hb : (t.AccountType == k) = true := beq_iff_eq.mpr ht
        simp only [List.find?, hb]
        rw [dictGet?_insert]
        simp [ht.symm]
      · have hb : (t.AccountType == k) = false := beq_eq_false_iff_ne.mpr ht
        simp only [List.find?, hb]
        rw [dictGet?_insert]
        simp [show ¬ k = t.AccountType from fun hc => ht hc.symm, dictGet?]

theorem compare_excel_only_eq (inter : List String → List String → List String)
    (e q : List Account) :
    (compare_account_types inter e q).excel_only =
      ((buildDict e).filter (fun it => !(dictContains (buildDict q) it.1))).map Prod.snd := rfl

theorem compare_qb_only_eq (inter : List String → List String → List String)
    (e q : List Account) :
    (compare_account_types inter e q).qb_only =
      ((buildDict q).filter (fun it => !(dictContains (buildDict e) it.1))).map Prod.snd := rfl

theorem compare_conflicts_eq (inter : List String → List String → List String)
    (e q : List Account) :
    (compare_account_types inter e q).conflicts =
      (inter (dictKeys (buildDict e)) (dictKeys (buildDict q))).filterMap
        (conflictAt (buildDict e) (buildDict q)) := rfl

theorem conflictAt_eq_some {ed qd : List (String × Account)} {k : String} {c : Conflict}
    (h : conflictAt ed qd k = some c) :
    ∃ ea qa, dictGet? ed k = some ea ∧ dictGet? qd k = some qa ∧ ea.name ≠ qa.name ∧
      c = { AccountType := k, id := ea.id, excel_name := some ea.name,
            qb_name := some qa.name, reason := "name_mismatch" } := by
  unfold conflictAt at h
  cases he : dictGet? ed k with
  | none => rw [he] at h; simp at h
  | some ea =>
    cases hq : dictGet? qd k with
    | none => rw [he, hq] at h; simp at h
    | some qa =>
      rw [he, hq] at h
      by_cases hn : ea.name = qa.name
      · simp [hn] at h
      · simp only [hn, ne_eq, not_false_iff, if_true, Option.some.injEq] at h
        exact ⟨ea, qa, rfl, rfl, hn, h.symm⟩

theorem conflictAt_key {ed qd : List (String × Account)} {k : String} {c : Conflict}
    (h : conflictAt ed qd k = some c) : c.AccountType = k := by
  obtain ⟨ea, qa, -, -, -, hc⟩ := conflictAt_eq_some h
  rw [hc]

theorem conflictAt_isSome_iff {ed qd : List (String × Account)} {k : String} :
    (conflictAt ed qd k).isSome ↔
      ∃ ea qa, dictGet? ed k = some ea ∧ dictGet? qd k = some qa ∧ ea.name ≠ qa.name := by
  constructor
  · intro h
    obtain ⟨c, hc⟩ := Option.isSome_iff_exists.mp h
    obtain ⟨ea, qa, he, hq, hn, -⟩ := conflictAt_eq_some hc
    exact ⟨ea, qa, he, hq, hn⟩
  · rintro ⟨ea, qa, he, hq, hn⟩
    unfold conflictAt
    rw [he, hq]
    simp [hn]

theorem mem_excel_only_iff (inter : List String → List String → List String)
    (e q : List Account) (a : Account) :
    a ∈ (compare_account_types inter e q).excel_only ↔
      dictGet? (buildDict e) a.AccountType = some a ∧
        dictGet? (buildDict q) a.AccountType = Option.none := by
  rw [compare_excel_only_eq]
  constructor
  · intro h
    obtain ⟨it, hit, hsnd⟩ := List.mem_map.mp h
    obtain ⟨hmem, hflt⟩ := List.mem_filter.mp hit
    have hco := mem_buildDict hmem
    have hk : it.1 = a.AccountType := by rw [hco.1, hsnd]
    have hget : dictGet? (buildDict e) a.AccountType = some a := by
      rw [← hk]
      have : (it.1, a) ∈ buildDict e := by
        have : it = (it.1, a) := by
          cases it; simp_all
        rw [← this]
        exact hmem
      exact dictGet?_eq_some_of_mem (nodup_dictKeys_buildDict e) this
    refine ⟨hget, ?_⟩
    have : ¬ (dictGet? (buildDict q) it.1).isSome := by
      simpa [dictContains] using hflt
    rw [← hk]
    exact Option.not_isSome_iff_eq_none.mp this
  · rintro ⟨hget, hnone⟩
    have hmem : (a.AccountType, a) ∈ buildDict e := mem_of_dictGet?_eq_some hget
    refine List.mem_map.mpr ⟨(a.AccountType, a), List.mem_filter.mpr ⟨hmem, ?_⟩, rfl⟩
    simp [dictContains, hnone]

theorem mem_qb_only_iff (inter : List String → List String → List String)
    (e q : List Account) (a : Account) :
    a ∈ (compare_account_types inter e q).qb_only ↔
      dictGet? (buildDict q) a.AccountType = some a ∧
        dictGet? (buildDict e) a.AccountType = Option.none := by
  rw [compare_qb_only_eq]
  constructor
  · intro h
    obtain ⟨it, hit, hsnd⟩ := List.mem_map.mp h
    obtain ⟨hmem, hflt⟩ := List.mem_filter.mp hit
    have hco := mem_buildDict hmem
    have hk : it.1 = a.AccountType := by rw [hco.1, hsnd]
    have hget : dictGet? (buildDict q) a.AccountType = some a := by
      rw [← hk]
      have : (it.1, a) ∈ buildDict q := by
        have : it = (it.1, a) := by
          cases it; simp_all
        rw [← this]
        exact hmem
      exact dictGet?_eq_some_of_mem (nodup_dictKeys_buildDict q) this
    refine ⟨hget, ?_⟩
    have : ¬ (dictGet? (buildDict e) it.1).isSome := by
      simpa [dictContains] using hflt
    rw [← hk]
    exact Option.not_isSome_iff_eq_none.mp this
  · rintro ⟨hget, hnone⟩
    have hmem : (a.AccountType, a) ∈ buildDict q := mem_of_dictGet?_eq_some hget
    refine List.mem_map.mpr ⟨(a.AccountType, a), List.mem_filter.mpr ⟨hmem, ?_⟩, rfl⟩
    simp [dictContains, hnone]

theorem mem_conflicts (inter : List String → List String → List String)
    (e q : List Account) (c : Conflict)
    (h : c ∈ (compare_account_types inter e q).conflicts) :
    ∃ ea qa, dictGet? (buildDict e) c.AccountType = some ea ∧
      dictGet? (buildDict q) c.AccountType = some qa ∧ ea.name ≠ qa.name ∧
      c.id = ea.id ∧ c.excel_name = some ea.name ∧ c.qb_name = some qa.name ∧
      c.reason = "name_mismatch" := by
  rw [compare_conflicts_eq] at h
  obtain ⟨k, -, hk⟩ := List.mem_filterMap.mp h
  obtain ⟨ea, qa, he, hq, hn, hc⟩ := conflictAt_eq_some hk
  have hkey : c.AccountType = k := by rw [hc]
  subst hkey
  exact ⟨ea, qa, he, hq, hn, by rw [hc], by rw [hc], by rw [hc], by rw [hc]⟩

theorem filterMap_map_key {α β : Type} (f : α → Option β) (g : β → α)
    (hkey : ∀ a b, f a = some b → g b = a) (l : List α) :
    (l.filterMap f).map g = l.filter (fun a => (f a).isSome) := by
  induction l with
  | nil => simp
  | cons a rest ih =>
    cases hf : f a with
    | none => simp [List.filterMap_cons, hf, ih]
    | some b =>
      simp only [List.filterMap_cons, hf, List.map_cons, List.filter_cons,
        Option.isSome_some, if_true, ih]
      rw [hkey a b hf]

theorem filterMap_filter_key_eq_nil {α β : Type} [DecidableEq α] (f : α → Option β)
    (g : β → α) (hkey : ∀ a b, f a = some b → g b = a) (l : List α) (k : α)
    (hk : k ∉ l) : (l.filterMap f).filter (fun c => g c == k) = [] := by
  rw [List.filter_eq_nil_iff]
  intro b hb
  obtain ⟨a, ha, hfa⟩ := List.mem_filterMap.mp hb
  have : g b = a := hkey a b hfa
  simp only [this]
  intro hc
  exact hk (by rwa [← beq_iff_eq.mp hc])

theorem filterMap_filter_key {α β : Type} [DecidableEq α] (f : α → Option β)
    (g : β → α) (hkey : ∀ a b, f a = some b → g b = a) :
    ∀ (l : List α), l.Nodup → ∀ k, k ∈ l →
      (l.filterMap f).filter (fun c => g c == k) = (f k).toList := by
  intro l
  induction l with
  | nil => intro _ k hk; simp at hk
  | cons a rest ih =>
    intro hnd k hk
    obtain ⟨hna, hndr⟩ := List.nodup_cons.mp hnd
    rcases List.mem_cons.mp hk with hka | hkr
    · subst hka
      cases hf : f k with
      | none =>
        simp only [List.filterMap_cons, hf, Option.toList_none]
        exact filterMap_filter_key_eq_nil f g hkey rest k hna
      | some b =>
        have hg : g b = k := hkey k b hf
        simp only [List.filterMap_cons, hf, List.filter_cons, hg, beq_self_eq_true,
          if_true, Option.toList_some]
        rw [filterMap_filter_key_eq_nil f g hkey rest k hna]
    · have hak : a ≠ k := fun hc => hna (hc ▸ hkr)
      cases hf : f a with
      | none =>
        simp only [List.filterMap_cons, hf]
        exact ih hndr k hkr
      | some b =>
        have hg : g b = a := hkey a b hf
        simp only [List.filterMap_cons, hf, List.filter_cons, hg]
        have : (a == k) = false := beq_eq_false_iff_ne.mpr hak
        simp only [this, if_false]
        exact ih hndr k hkr

/-- C1, counterexample: the reconciler does not match records by their id
field.  One Excel and one QuickBooks record share id "1" (with different
names), yet the Excel record lands in excel_only, the QuickBooks record in
qb_only, and no conflict is emitted — because the lookup tables are keyed
by AccountType, not id. -/
theorem c1_counterexample :
    (compare_account_types interFirst [c1exA] [c1qbA]).excel_only = [c1exA] ∧
    (compare_account_types interFirst [c1exA] [c1qbA]).qb_only = [c1qbA] ∧
    (compare_account_types interFirst [c1exA] [c1qbA]).conflicts = [] ∧
    c1exA.id = c1qbA.id ∧ c1exA.name ≠ c1qbA.name :=
  ⟨by decide, by decide, by decide, by decide, by decide⟩

/-- C1 (amended): the reconciler matches records between the two sources by
their AccountType field, treated as a case-sensitive opaque string: the two
lookup tables are keyed by AccountType, a record lands in excel_only /
qb_only exactly when its AccountType is absent from the other source's
table, and conflict detection pairs the two records that share an
AccountType. -/
theorem c1_amended_keying (inter : List String → List String → List String)
    (e q : List Account) :
    (∀ a : Account, a ∈ (compare_account_types inter e q).excel_only ↔
      dictGet? (buildDict e) a.AccountType = some a ∧
        dictGet? (buildDict q) a.AccountType = Option.none) ∧
    (∀ a : Account, a ∈ (compare_account_types inter e q).qb_only ↔
      dictGet? (buildDict q) a.AccountType = some a ∧
        dictGet? (buildDict e) a.AccountType = Option.none) ∧
    (∀ c : Conflict, c ∈ (compare_account_types inter e q).conflicts →
      ∃ ea qa, dictGet? (buildDict e) c.AccountType = some ea ∧
        dictGet? (buildDict q) c.AccountType = some qa ∧
        ea.AccountType = c.AccountType ∧ qa.AccountType = c.AccountType ∧
        ea.name ≠ qa.name) := by
  refine ⟨mem_excel_only_iff inter e q, mem_qb_only_iff inter e q, ?_⟩
  intro c hc
  obtain ⟨ea, qa, he, hq, hn, -, -, -, -⟩ := mem_conflicts inter e q c hc
  have hea := mem_buildDict (mem_of_dictGet?_eq_some he)
  have hqa := mem_buildDict (mem_of_dictGet?_eq_some hq)
  exact ⟨ea, qa, he, hq, hea.1.symm, hqa.1.symm, hn⟩

/-- C1, witness: the amended keying behaviour evaluated at concrete
inputs — the excel_only membership and the conflict pairing. -/
theorem c1_amended_witness :
    c1exA ∈ (compare_account_types interFirst [c1exA] [c1qbA]).excel_only ∧
    (∃ ea qa, dictGet? (buildDict [c1exC]) c9c.AccountType = some ea ∧
      dictGet? (buildDict [c1qbC]) c9c.AccountType = some qa ∧
      ea.AccountType = c9c.AccountType ∧ qa.AccountType = c9c.AccountType ∧
      ea.name ≠ qa.name) := by
  constructor
  · exact ((c1_amended_keying interFirst [c1exA] [c1qbA]).1 c1exA).mpr ⟨by decide, by decide⟩
  · exact (c1_amended_keying interFirst [c1exC] [c1qbC]).2.2 c9c (by decide)

/-- C3, counterexample: id "1" appears simultaneously in the excel_only
and the qb_only output, so the outputs do not partition the ids appearing
in either input (they partition AccountTypes instead). -/
theorem c3_counterexample :
    (compare_account_types interFirst [c1exA] [c1qbA]).excel_only.map (fun a => a.id) = ["1"] ∧
    (compare_account_types interFirst [c1exA] [c1qbA]).qb_only.map (fun a => a.id) = ["1"] :=
  ⟨by decide, by decide⟩

/-- C3 (amended): the three outputs partition the AccountTypes appearing
in either input into four disjoint categories — excel-only, qb-only,
conflicting, or fully matched (no output): no AccountType appears in more
than one of excel_only, qb_only and conflicts, and an AccountType whose
surviving records in both tables carry equal names appears in none of
them. -/
theorem c3_amended_partition (inter : List String → List String → List String)
    (e q : List Account) :
    (∀ a ∈ (compare_account_types inter e q).excel_only,
      ∀ b ∈ (compare_account_types inter e q).qb_only, a.AccountType ≠ b.AccountType) ∧
    (∀ a ∈ (compare_account_types inter e q).excel_only,
      ∀ c ∈ (compare_account_types inter e q).conflicts, a.AccountType ≠ c.AccountType) ∧
    (∀ b ∈ (compare_account_types inter e q).qb_only,
      ∀ c ∈ (compare_account_types inter e q).conflicts, b.AccountType ≠ c.AccountType) ∧
    (∀ (k : String) (ea qa : Account), dictGet? (buildDict e) k = some ea →
      dictGet? (buildDict q) k = some qa → ea.name = qa.name →
      (∀ a ∈ (compare_account_types inter e q).excel_only, a.AccountType ≠ k) ∧
      (∀ b ∈ (compare_account_types inter e q).qb_only, b.AccountType ≠ k) ∧
      (∀ c ∈ (compare_account_types inter e q).conflicts, c.AccountType ≠ k)) := by
  refine ⟨?_, ?_, ?_, ?_⟩
  · intro a ha b hb hcon
    obtain ⟨-, hanone⟩ := (mem_excel_only_iff inter e q a).mp ha
    obtain ⟨hbsome, -⟩ := (mem_qb_only_iff inter e q b).mp hb
    rw [hcon] at hanone
    simp [hanone] at hbsome
  · intro a ha c hc hcon
    obtain ⟨-, hanone⟩ := (mem_excel_only_iff inter e q a).mp ha
    obtain ⟨ea, qa, -, hq, -⟩ := mem_conflicts inter e q c hc
    rw [hcon] at hanone
    simp [hanone] at hq
  · intro b hb c hc hcon
    obtain ⟨-, hbnone⟩ := (mem_qb_only_iff inter e q b).mp hb
    obtain ⟨ea, qa, he, -, -⟩ := mem_conflicts inter e q c hc
    rw [hcon] at hbnone
    simp [hbnone] at he
  · intro k ea qa hek hqk hnames
    refine ⟨?_, ?_, ?_⟩
    · intro a ha hcon
      obtain ⟨-, hanone⟩ := (mem_excel_only_iff inter e q a).mp ha
      rw [hcon] at hanone
      simp [hanone] at hqk
    · intro b hb hcon
      obtain ⟨-, hbnone⟩ := (mem_qb_only_iff inter e q b).mp hb
      rw [hcon] at hbnone
      simp [hbnone] at hek
    · intro c hc hcon
      obtain ⟨ea2, qa2, he2, hq2, hn2, -⟩ := mem_conflicts inter e q c hc
      rw [hcon] at he2 hq2
      rw [hek] at he2
      rw [hqk] at hq2
      have h1 : ea2 = ea := by injection he2.symm
      have h2 : qa2 = qa := by injection hq2.symm
      rw [h1, h2] at hn2
      exact hn2 hnames

/-- C3, witness: the amended partition evaluated at concrete inputs. -/
theorem c3_amended_witness :
    c1exA.AccountType ≠ c1qbA.AccountType ∧ c1exC.AccountType ≠ "TM" := by
  constructor
  · exact (c3_amended_partition interFirst [c1exA] [c1qbA]).1 c1exA (by decide) c1qbA (by decide)
  · exact ((c3_amended_partition interFirst [c3m1, c1exC] [c3m2]).2.2.2 "TM" c3m1 c3m2
      (by decide) (by decide) (by decide)).1 c1exC (by decide)

/-- C4, counterexample: two records with the same id "5" but different
AccountTypes both survive into the comparison — the earlier occurrence is
not overwritten, because the lookup table is keyed by AccountType, not
id. -/
theorem c4_counterexample :
    (compare_account_types interFirst [c4a, c4b] []).excel_only = [c4a, c4b] ∧
    c4a.id = c4b.id ∧ c4a ≠ c4b :=
  ⟨by decide, by decide, by decide⟩

/-- C4 (amended): last-write-wins applies per AccountType key: in the
lookup tables the reconciler builds, each key maps to the last record in
iteration order whose AccountType equals that key, so only that record
participates in the excel_only / qb_only and conflict comparison for the
key; duplicate ids with distinct AccountTypes all survive. -/
theorem c4_amended_last_write_wins (ts : List Account) (k : String) :
    dictGet? (buildDict ts) k = ts.reverse.find? (fun t => t.AccountType == k) :=
  dictGet?_buildDict ts k

/-- C9: every Conflict emitted by compare_account_types has reason equal
to the literal "name_mismatch", carries an excel_name different from its
qb_name, and takes its id from the Excel-side record of the matched
pair. -/
theorem c9_conflict_fields (inter : List String → List String → List String)
    (e q : List Account) (c : Conflict)
    (h : c ∈ (compare_account_types inter e q).conflicts) :
    c.reason = "name_mismatch" ∧ c.excel_name ≠ c.qb_name ∧
    ∃ ea, dictGet? (buildDict e) c.AccountType = some ea ∧ c.id = ea.id ∧ ea ∈ e := by
  obtain ⟨ea, qa, he, hq, hn, hid, hen, hqn, hr⟩ := mem_conflicts inter e q c h
  refine ⟨hr, ?_, ea, he, hid, (mem_buildDict (mem_of_dictGet?_eq_some he)).2⟩
  rw [hen, hqn]
  simpa using hn

/-- C9, witness: the conflict invariants evaluated on the concrete
conflict produced for the c1exC / c1qbC pair. -/
theorem c9_conflict_fields_witness :
    c9c.reason = "name_mismatch" ∧ c9c.excel_name ≠ c9c.qb_name ∧
    ∃ ea, dictGet? (buildDict [c1exC]) c9c.AccountType = some ea ∧
      c9c.id = ea.id ∧ ea ∈ [c1exC] :=
  c9_conflict_fields interFirst [c1exC] [c1qbC] c9c (by decide)

/-- C10: every Account in the excel_only and qb_only outputs is one of the
input records of the corresponding source, unchanged field for field
(the reconciler constructs no new Account values). -/
theorem c10_no_new_accounts (inter : List String → List String → List String)
    (e q : List Account) :
    (∀ a ∈ (compare_account_types inter e q).excel_only, a ∈ e) ∧
    (∀ b ∈ (compare_account_types inter e q).qb_only, b ∈ q) := by
  constructor
  · intro a ha
    obtain ⟨hgete, -⟩ := (mem_excel_only_iff inter e q a).mp ha
    exact (mem_buildDict (mem_of_dictGet?_eq_some hgete)).2
  · intro b hb
    obtain ⟨hgetq, -⟩ := (mem_qb_only_iff inter e q b).mp hb
    exact (mem_buildDict (mem_of_dictGet?_eq_some hgetq)).2

/-- C10, witness: the output-is-input property at a concrete run in which
c1exA comes out in excel_only. -/
theorem c10_no_new_accounts_witness : c1exA ∈ [c1exA] :=
  (c10_no_new_accounts interFirst [c1exA] [c1qbA]).1 c1exA (by decide)

/-- C2, counterexample: a matched pair whose records differ in the
secondary field `number` (names equal) produces no Conflict at all — the
reconciler compares only the name field, and the Conflict model carries no
number fields to begin with. -/
theorem c2_counterexample :
    (compare_account_types interFirst [c2ex] [c2qb]).conflicts = [] ∧
    c2ex.AccountType = c2qb.AccountType ∧ c2ex.number ≠ c2qb.number :=
  ⟨by decide, by decide, by decide⟩

/-- C2 (amended): for every key present in both lookup tables, the
reconciler compares only the `name` field of the two surviving records; if
the names differ it emits exactly one Conflict for that key — carrying
both names, the shared AccountType and the Excel record's id, but not the
numbers and not both types as separate fields — and if the names agree it
emits none. -/
theorem c2_amended_name_only (inter : List String → List String → List String)
    (hI : ValidInter inter) (e q : List Account) (k : String) (ea qa : Account)
    (he : dictGet? (buildDict e) k = some ea)
    (hq : dictGet? (buildDict q) k = some qa) :
    (ea.name ≠ qa.name →
      (compare_account_types inter e q).conflicts.filter (fun c => c.AccountType == k) =
        [{ AccountType := k, id := ea.id, excel_name := some ea.name,
           qb_name := some qa.name, reason := "name_mismatch" }]) ∧
    (ea.name = qa.name →
      (compare_account_types inter e q).conflicts.filter (fun c => c.AccountType == k) = []) := by
  have hnd := (hI (dictKeys (buildDict e)) (dictKeys (buildDict q))).1
  have hmem := (hI (dictKeys (buildDict e)) (dictKeys (buildDict q))).2
  have hkE : k ∈ dictKeys (buildDict e) := (mem_dictKeys_iff _ k).mpr (by simp [he])
  have hkQ : k ∈ dictKeys (buildDict q) := (mem_dictKeys_iff _ k).mpr (by simp [hq])
  have hkI : k ∈ inter (dictKeys (buildDict e)) (dictKeys (buildDict q)) :=
    (hmem k).mpr ⟨hkE, hkQ⟩
  have hfilter : ((inter (dictKeys (buildDict e)) (dictKeys (buildDict q))).filterMap
        (conflictAt (buildDict e) (buildDict q))).filter (fun c => c.AccountType == k) =
      (conflictAt (buildDict e) (buildDict q) k).toList :=
    filterMap_filter_key (conflictAt (buildDict e) (buildDict q)) (fun c => c.AccountType)
      (fun a b hb => conflictAt_key hb) _ hnd k hkI
  rw [compare_conflicts_eq, hfilter]
  unfold conflictAt
  rw [he, hq]
  constructor
  · intro hn
    simp [hn]
  · intro hn
    simp [hn]

/-- C2, witness: the name-only comparison at concrete inputs — one
conflicting key "TD" and one fully matched key "T". -/
theorem c2_amended_witness :
    (compare_account_types interFirst [c2exD] [c2qbD]).conflicts.filter
        (fun c => c.AccountType == "TD") =
      [{ AccountType := "TD", id := c2exD.id, excel_name := some c2exD.name,
         qb_name := some c2qbD.name, reason := "name_mismatch" }] ∧
    (compare_account_types interFirst [c2ex] [c2qb]).conflicts.filter
        (fun c => c.AccountType == "T") = [] := by
  constructor
  · exact (c2_amended_name_only interFirst validInter_interFirst [c2exD] [c2qbD] "TD"
      c2exD c2qbD (by decide) (by decide)).1 (by decide)
  · exact (c2_amended_name_only interFirst validInter_interFirst [c2ex] [c2qb] "T"
      c2ex c2qb (by decide) (by decide)).2 (by decide)

/-- C8, counterexample: under the set-iteration order interRev —
a legitimate enumeration of the unordered set intersection (see
validInter_interRev) — the conflicts come out in the order TB, TA, while
the primary table's key iteration restricted to shared keys is TA, TB:
the output order is not the primary-key order and hence not what the
claim promises. -/
theorem c8_counterexample :
    (compare_account_types interRev [c8e1, c8e2] [c8q1, c8q2]).conflicts.map
        (fun c => c.AccountType) = ["TB", "TA"] ∧
    (dictKeys (buildDict [c8e1, c8e2])).filter
        (fun k => dictContains (buildDict [c8q1, c8q2]) k) = ["TA", "TB"] ∧
    interRev (dictKeys (buildDict [c8e1, c8e2])) (dictKeys (buildDict [c8q1, c8q2])) =
      ["TB", "TA"] :=
  ⟨by decide, by decide, by decide⟩

/-- C8 (amended): the conflicts list follows the iteration order of the
unordered set intersection of the two key sets (whatever order that
enumeration yields), listing exactly the shared AccountTypes whose names
differ; it is a permutation of those keys in primary-table order, but the
order itself is not guaranteed to match the primary table's key order or
to be reproducible across runs. -/
theorem c8_amended_order (inter : List String → List String → List String)
    (hI : ValidInter inter) (e q : List Account) :
    ((compare_account_types inter e q).conflicts.map (fun c => c.AccountType) =
      (inter (dictKeys (buildDict e)) (dictKeys (buildDict q))).filter
        (fun k => (conflictAt (buildDict e) (buildDict q) k).isSome)) ∧
    ((compare_account_types inter e q).conflicts.map (fun c => c.AccountType)).Perm
      ((dictKeys (buildDict e)).filter
        (fun k => (conflictAt (buildDict e) (buildDict q) k).isSome)) := by
  have hmapkey : (compare_account_types inter e q).conflicts.map (fun c => c.AccountType) =
      (inter (dictKeys (buildDict e)) (dictKeys (buildDict q))).filter
        (fun k => (conflictAt (buildDict e) (buildDict q) k).isSome) := by
    rw [compare_conflicts_eq]
    exact filterMap_map_key (conflictAt (buildDict e) (buildDict q)) (fun c => c.AccountType)
      (fun a b hb => conflictAt_key hb) _
  refine ⟨hmapkey, ?_⟩
  rw [hmapkey]
  have hnd1 : ((inter (dictKeys (buildDict e)) (dictKeys (buildDict q))).filter
      (fun k => (conflictAt (buildDict e) (buildDict q) k).isSome)).Nodup :=
    ((hI (dictKeys (buildDict e)) (dictKeys (buildDict q))).1).filter _
  have hnd2 : ((dictKeys (buildDict e)).filter
      (fun k => (conflictAt (buildDict e) (buildDict q) k).isSome)).Nodup :=
    (nodup_dictKeys_buildDict e).filter _
  rw [List.perm_ext_iff_of_nodup hnd1 hnd2]
  intro k
  simp only [List.mem_filter]
  constructor
  · rintro ⟨hkI, hsome⟩
    exact ⟨(((hI (dictKeys (buildDict e)) (dictKeys (buildDict q))).2 k).mp hkI).1, hsome⟩
  · rintro ⟨hkE, hsome⟩
    have hkQ : k ∈ dictKeys (buildDict q) := by
      obtain ⟨ea, qa, -, hgq, -⟩ := conflictAt_isSome_iff.mp (by simpa using hsome)
      exact (mem_dictKeys_iff _ k).mpr (by simp [hgq])
    exact ⟨((hI (dictKeys (buildDict e)) (dictKeys (buildDict q))).2 k).mpr ⟨hkE, hkQ⟩, hsome⟩

/-- C8, witness: the amended order statement evaluated at the concrete
two-conflict scenario under the interFirst enumeration. -/
theorem c8_amended_order_witness :
    ((compare_account_types interFirst [c8e1, c8e2] [c8q1, c8q2]).conflicts.map
        (fun c => c.AccountType) =
      (interFirst (dictKeys (buildDict [c8e1, c8e2])) (dictKeys (buildDict [c8q1, c8q2]))).filter
        (fun k => (conflictAt (buildDict [c8e1, c8e2]) (buildDict [c8q1, c8q2]) k).isSome)) ∧
    ((compare_account_types interFirst [c8e1, c8e2] [c8q1, c8q2]).conflicts.map
        (fun c => c.AccountType)).Perm
      ((dictKeys (buildDict [c8e1, c8e2])).filter
        (fun k => (conflictAt (buildDict [c8e1, c8e2]) (buildDict [c8q1, c8q2]) k).isSome)) :=
  c8_amended_order interFirst validInter_interFirst [c8e1, c8e2] [c8q1, c8q2]

theorem build_requests_error_of_bad {terms : List Account}
    (h : ∃ t ∈ terms, pyInt t.id = Option.none) :
    ∃ t0 ∈ terms, build_requests terms =
      Except.error ("ValueError: id must be numeric for QuickBooks account terms: " ++ t0.id) := by
  induction terms with
  | nil => simp at h
  | cons t rest ih =>
    cases hp : pyInt t.id with
    | none =>
      refine ⟨t, List.mem_cons_self t rest, ?_⟩
      simp [build_requests, account_add_request, hp]
    | some n =>
      obtain ⟨t1, ht1, hbad⟩ := h
      rcases List.mem_cons.mp ht1 with heq | hrest
      · rw [heq, hp] at hbad
        simp at hbad
      · obtain ⟨t0, ht0, herr⟩ := ih ⟨t1, hrest, hbad⟩
        refine ⟨t0, List.mem_cons_of_mem t ht0, ?_⟩
        simp [build_requests, account_add_request, hp, herr]

theorem build_requests_ok_of_good {terms : List Account}
    (h : ∀ t ∈ terms, (pyInt t.id).isSome) :
    ∃ rs, build_requests terms = Except.ok rs := by
  induction terms with
  | nil => exact ⟨[], rfl⟩
  | cons t rest ih =>
    obtain ⟨n, hn⟩ := Option.isSome_iff_exists.mp (h t (List.mem_cons_self t rest))
    obtain ⟨rs, hrs⟩ := ih (fun u hu => h u (List.mem_cons_of_mem t hu))
    cases hreq : account_add_request t with
    | error e =>
      exfalso
      unfold account_add_request at hreq
      rw [hn] at hreq
      simp at hreq
    | ok r =>
      refine ⟨r :: rs, ?_⟩
      simp [build_requests, hreq, hrs]

/-- Supporting fact for the orchestration: run_accounts produces a report
payload on every collaborator behaviour — either a success payload with no
error, or an error payload carrying the stringified exception; no
collaborator exception ever escapes. -/
theorem run_accounts_always_reports (extract fetch : Except String (List Account))
    (cmp : List Account → List Account → Except String ComparisonReport)
    (addBatch : List Account → Except String (List Account)) :
    ((run_accounts extract fetch cmp addBatch).status = "success" ∧
      (run_accounts extract fetch cmp addBatch).error = Option.none) ∨
    ((run_accounts extract fetch cmp addBatch).status = "error" ∧
      ∃ m, (run_accounts extract fetch cmp addBatch).error = some m) := by
  unfold run_accounts
  rcases extract with e | ea
  · right; exact ⟨rfl, e, rfl⟩
  · rcases fetch with e | qa
    · right; exact ⟨rfl, e, rfl⟩
    · rcases hc : cmp ea qa with e | comparison
      · simp [hc]
      · rcases hb : addBatch comparison.excel_only with e | added
        · simp [hc, hb]
        · rcases hd : accounts_to_dicts added with e | ds
          · simp [hc, hb, hd]
          · simp [hc, hb, hd]

/-- C5: the claim's "never crash, always report, exit 0" contract is the
intent, but the shipped CLI cannot complete a run at all: cli.py imports
run_payment_terms from the runner module, which defines run_accounts only,
so the process dies with ImportError before main is entered (the runner's
own try/except does convert collaborator exceptions into the error payload,
as the second and third conjuncts evaluate). -/
theorem c5_cli_import_bug :
    cli_runner_import =
      Except.error "ImportError: cannot import name run_payment_terms from src.runner" ∧
    run_accounts (Except.error "boom") (Except.ok [])
        (fun a b => Except.ok (compare_account_types interFirst a b))
        (fun _ => Except.ok []) =
      { status := "error", added_terms := [], added_accounts := Option.none,
        conflicts := [], error := some "boom" } ∧
    run_accounts (Except.ok []) (Except.ok [])
        (fun _ _ => Except.error "AttributeError: module src.compare has no attribute compare_payment_terms")
        (fun _ => Except.ok []) =
      { status := "error", added_terms := [], added_accounts := Option.none, conflicts := [],
        error := some "AttributeError: module src.compare has no attribute compare_payment_terms" } :=
  ⟨rfl, by decide, by decide⟩

/-- C6: for every non-empty input to add_accounts_batch, a record whose id
is not parseable as an integer makes the call raise ValueError before any
request reaches the transport (the error is the same whatever the
transport would answer), and when every id parses but the external system
reports a batch-level failure the call returns the empty list rather than
a partial result. -/
theorem c6_batch_create (send : String → Except String (List AccountRet))
    (terms : List Account) (hne : terms ≠ []) :
    ((∃ t ∈ terms, pyInt t.id = Option.none) →
      ∃ t0 ∈ terms, ∀ send2 : String → Except String (List AccountRet),
        add_accounts_batch send2 terms =
          Except.error ("ValueError: id must be numeric for QuickBooks account terms: " ++ t0.id)) ∧
    (∀ m : String, (∀ t ∈ terms, (pyInt t.id).isSome) →
      (∀ s : String, send s = Except.error m) →
      add_accounts_batch send terms = Except.ok []) := by
  constructor
  · intro h
    obtain ⟨t0, ht0, herr⟩ := build_requests_error_of_bad h
    refine ⟨t0, ht0, fun send2 => ?_⟩
    unfold add_accounts_batch
    rw [if_neg hne, herr]
  · intro m hgood hsend
    obtain ⟨rs, hrs⟩ := build_requests_ok_of_good hgood
    unfold add_accounts_batch
    simp only [if_neg hne, hrs, hsend]

/-- C6, witness: the batch-create behaviour at concrete inputs — the
non-numeric id "AB-1" aborts with ValueError, and a failing transport
turns a well-formed batch into the empty list. -/
theorem c6_batch_create_witness :
    add_accounts_batch c6sendFail [c6bad] =
      Except.error ("ValueError: id must be numeric for QuickBooks account terms: " ++ c6bad.id) ∧
    add_accounts_batch c6sendFail [c6good] = Except.ok [] := by
  constructor
  · obtain ⟨t0, ht0, hall⟩ := (c6_batch_create c6sendFail [c6bad] (by decide)).1
      ⟨c6bad, by decide, by decide⟩
    have ht : t0 = c6bad := by simpa using ht0
    rw [ht] at hall
    exact hall c6sendFail
  · exact (c6_batch_create c6sendFail [c6good] (by decide)).2 "QuickBooks error"
      (by decide) (fun s => rfl)

/-- C7: the importer does not canonicalize numeric-looking identifiers —
a spreadsheet cell holding the float 30.0 yields the id "30.0", not "30",
although the adjacent source comment promises the normalization — while
the gateway does canonicalize (Desc "007" becomes id "7"), so the two
sides do not apply the same translation, contradicting the claim (and the
importer's own comment). -/
theorem c7_importer_gateway_divergence :
    extract_account
        [[Cell.str "ID", Cell.str "Number", Cell.str "Name", Cell.str "Type"],
         [Cell.num "30.0", Cell.num "100", Cell.str "Cash", Cell.str "ASSET"]] =
      [{ AccountType := "ASSET", number := "100", name := "Cash", id := "30.0",
         source := "excel" }] ∧
    ("30.0" : String) ≠ "30" ∧
    fetch_accounts (fun _ => Except.ok
        [{ desc := some "007", name := some "Cash", accountNumber := some "100",
           accountType := some "ASSET" }]) =
      Except.ok [{ AccountType := "ASSET", number := "100", name := "Cash", id := "7",
                   source := "quickbooks" }] :=
  ⟨by decide, by decide, rfl⟩

end QBConnector
